import Mathlib

/-
Shallow embedding of the certificate-issuance core of tidb-operator:
  src/pkg/controller/cert_control.go  (realCertControl)
  src/pkg/util/crypto/certs.go        (NewCSR)
External collaborators (the Kubernetes API server state, the Go standard
library crypto and PEM routines, the label package) are modelled as an
explicit world state plus oracle environments whose outcomes are inputs.
-/

namespace TidbCertControl

/-- Byte strings (Go byte slices) are modelled as lists of naturals. -/
abbrev ByteStr := List Nat

/-- Go errors are modelled by their message string. -/
abbrev GoErr := String

/-- Modelled from the spec: the label package (not under src) supplies fixed
ownership-label keys; only their fixedness and distinctness matter here. -/
def NamespaceLabelKey : String := "app.kubernetes.io/namespace"

/-- Modelled from the spec: key of the managed-by marker of this system. -/
def ManagedByLabelKey : String := "app.kubernetes.io/managed-by"

/-- Modelled from the spec: key of the instance ownership label. -/
def InstanceLabelKey : String := "app.kubernetes.io/instance"

/-- Modelled from the spec: key of the component ownership label. -/
def ComponentLabelKey : String := "app.kubernetes.io/component"

/-- Modelled from the spec: label.New() carries the managed-by marker of this
system, a fixed value distinguishing resources it owns. -/
def labelNew : List (String × String) := [(ManagedByLabelKey, "tidb-operator")]

/-- Go map lookup on a string-keyed label map; a missing key yields "". -/
def getLabel (m : List (String × String)) (k : String) : String :=
  (Option.map Prod.snd (m.find? (fun p => p.1 == k))).getD ""

/-- Kubernetes constant capi.CertificateApproved. -/
def CertificateApproved : String := "Approved"

/-- A condition entry of a CertificateSigningRequest status. -/
structure CSRCondition where
  condType : String
  reason : String
  message : String
deriving DecidableEq, Repr

/-- Status of a CSR resource: approval conditions plus the signed certificate,
where none models a nil Go byte slice and some models a present one. -/
structure CSRStatus where
  conditions : List CSRCondition
  certificate : Option ByteStr
deriving DecidableEq, Repr

/-- A CertificateSigningRequest resource of the cluster control plane. -/
structure CSRres where
  name : String
  labels : List (String × String)
  request : ByteStr
  usages : List String
  status : CSRStatus
  uid : Nat
deriving DecidableEq, Repr

/-- A Kubernetes Secret object as used by this core. -/
structure SecretObj where
  name : String
  labels : List (String × String)
  data : List (String × ByteStr)
deriving DecidableEq, Repr

/-- The control-plane state visible to this core: Secrets keyed by namespace
and name, cluster-scoped CSR resources keyed by name, and a UID counter the
API server uses for newly created resources. -/
structure World where
  secrets : List ((String × String) × SecretObj)
  csrs : List (String × CSRres)
  nextUid : Nat
deriving DecidableEq, Repr

def emptyWorld : World := { secrets := [], csrs := [], nextUid := 0 }

def World.getSecret (w : World) (ns name : String) : Option SecretObj :=
  Option.map Prod.snd (w.secrets.find? (fun p => p.1 == (ns, name)))

def World.putSecret (w : World) (ns : String) (s : SecretObj) : World :=
  { w with secrets := ((ns, s.name), s) :: w.secrets }

def World.getCSRres (w : World) (name : String) : Option CSRres :=
  Option.map Prod.snd (w.csrs.find? (fun p => p.1 == name))

def World.putCSR (w : World) (c : CSRres) : World :=
  { w with csrs := (c.name, c) :: w.csrs.filter (fun p => p.1 != c.name) }

def World.deleteCSR (w : World) (name : String) : World :=
  { w with csrs := w.csrs.filter (fun p => p.1 != name) }

/-- Go map access secret.Data[k]; a missing field yields a nil (empty) slice. -/
def dataField (d : List (String × ByteStr)) (k : String) : ByteStr :=
  (Option.map Prod.snd (d.find? (fun p => p.1 == k))).getD []

/-- LoadFromSecret (cert_control.go lines 238-245): Secrets(ns).Get, then the
"cert" and "key" fields. -/
def loadFromSecret (w : World) (ns secretName : String) : Except GoErr (ByteStr × ByteStr) :=
  match w.getSecret ns secretName with
  | none => Except.error ("secret " ++ ns ++ "/" ++ secretName ++ " not found")
  | some s => Except.ok (dataField s.data "cert", dataField s.data "key")

/-- Opaque handle for a parsed x509 certificate. -/
abbrev Cert := ByteStr

/-- Opaque handle for a root-certificate pool. -/
abbrev RootPool := List ByteStr

/-- Oracle environment for the external crypto collaborators used by
CheckSecret: pem.Decode, x509.ParseCertificate, certutil.ReadCACerts,
x509 chain verification, and tls.X509KeyPair. Each outcome is an input. -/
structure CryptoEnv where
  pemDecode : ByteStr → Option ByteStr
  parseCert : ByteStr → Except GoErr Cert
  readCACerts : Except GoErr RootPool
  verify : Cert → RootPool → List String → Except GoErr Unit
  x509KeyPair : ByteStr → ByteStr → Except GoErr Unit

/-- The fixed extended-key-usage set CheckSecret verifies against
(x509.ExtKeyUsageClientAuth, x509.ExtKeyUsageServerAuth). -/
def extKeyUsages : List String := ["client auth", "server auth"]

/-- CheckSecret (cert_control.go lines 272-317), given the outcome of
LoadFromSecret: every failure path returns false, no error is surfaced. -/
def checkSecret (env : CryptoEnv) (load : Except GoErr (ByteStr × ByteStr)) : Bool :=
  match load with
  | Except.error _ => false
  | Except.ok (certBytes, keyBytes) =>
    match env.pemDecode certBytes with
    | none => false
    | some blockBytes =>
      match env.parseCert blockBytes with
      | Except.error _ => false
      | Except.ok cert =>
        match env.readCACerts with
        | Except.error _ => false
        | Except.ok rootCAs =>
          match env.verify cert rootCAs extKeyUsages with
          | Except.error _ => false
          | Except.ok _ =>
            match env.x509KeyPair certBytes keyBytes with
            | Except.error _ => false
            | Except.ok _ => true

/-- Derivation of the CSR (and checked secret) name in Create
(cert_control.go lines 59-64): instance alone if the suffix is empty,
else instance-suffix. -/
def csrNameOf (instanceName suffix : String) : String :=
  if suffix = "" then instanceName else instanceName ++ "-" ++ suffix

/-- Derivation of the secret name in SaveToSecret (cert_control.go line 248):
always instance-suffix, also when the suffix is empty. -/
def secretNameOf (instanceName suffix : String) : String :=
  instanceName ++ "-" ++ suffix

/-- C9: the secret-usability check never surfaces an error: it is a Bool for
every input, false on every failure path (load error, PEM decode failure,
parse failure, unreadable roots, chain-verification failure against the
client-auth and server-auth usages, key-pair mismatch) and true exactly when
all of these checks pass. -/
theorem checkSecret_true_iff_all_checks_pass (env : CryptoEnv)
    (load : Except GoErr (ByteStr × ByteStr)) :
    checkSecret env load = true ↔
      ∃ cb kb bb c roots, load = Except.ok (cb, kb) ∧
        env.pemDecode cb = some bb ∧
        env.parseCert bb = Except.ok c ∧
        env.readCACerts = Except.ok roots ∧
        env.verify c roots extKeyUsages = Except.ok () ∧
        env.x509KeyPair cb kb = Except.ok () := by
  constructor
  · intro h
    cases hl : load with
    | error e => rw [hl] at h; simp [checkSecret] at h
    | ok p =>
      obtain ⟨cb, kb⟩ := p
      rw [hl] at h
      cases hpd : env.pemDecode cb with
      | none => simp [checkSecret, hpd] at h
      | some bb =>
        cases hpc : env.parseCert bb with
        | error e => simp [checkSecret, hpd, hpc] at h
        | ok c =>
          cases hca : env.readCACerts with
          | error e => simp [checkSecret, hpd, hpc, hca] at h
          | ok roots =>
            cases hv : env.verify c roots extKeyUsages with
            | error e => simp [checkSecret, hpd, hpc, hca, hv] at h
            | ok u =>
              cases hkp : env.x509KeyPair cb kb with
              | error e => simp [checkSecret, hpd, hpc, hca, hv, hkp] at h
              | ok u2 =>
                cases u
                cases u2
                exact ⟨cb, kb, bb, c, roots, rfl, hpd, hpc, rfl, hv, hkp⟩
  · rintro ⟨cb, kb, bb, c, roots, hl, hpd, hpc, hca, hv, hkp⟩
    rw [hl]
    simp [checkSecret, hpd, hpc, hca, hv, hkp]

/-- C10: SaveToSecret always persists under instance-suffix joined by a
hyphen, also for the empty suffix (trailing hyphen), while Create checks and
uses instance alone when the suffix is empty; so with an empty suffix the
name checked in step 1 differs from the name written in step 6. -/
theorem secret_name_mismatch_empty_suffix :
    ∀ instanceName : String, csrNameOf instanceName "" = instanceName ∧
      secretNameOf instanceName "" = instanceName ++ "-" ∧
      csrNameOf instanceName "" ≠ secretNameOf instanceName "" := by
  intro i
  have h1 : csrNameOf i "" = i := by simp [csrNameOf]
  have h2 : secretNameOf i "" = i ++ "-" := by simp [secretNameOf]
  refine ⟨h1, h2, ?_⟩
  rw [h1, h2]
  intro h
  have hlen := congrArg String.length h
  have hone : ("-" : String).length = 1 := rfl
  rw [String.length_append, hone] at hlen
  omega

/-- Opaque handle for a generated RSA private key. -/
abbrev RSAKey := Nat

/-- The x509.CertificateRequest template built by NewCSR
(certs.go lines 63-72); an ipAddresses entry none models the nil net.IP a
failed net.ParseIP produces. -/
structure CSRTemplate where
  organization : List String
  organizationalUnit : List String
  commonName : String
  dnsNames : List String
  ipAddresses : List (Option ByteStr)
deriving DecidableEq, Repr

/-- Oracle environment for the external collaborators of NewCSR:
rsa.GenerateKey, net.ParseIP, x509.CreateCertificateRequest and
x509.MarshalPKCS1PrivateKey. Outcomes are inputs. -/
structure KeygenEnv where
  genKey : Except GoErr RSAKey
  parseIP : String → Option ByteStr
  createCertReq : CSRTemplate → RSAKey → Except GoErr ByteStr
  marshalPKCS1 : RSAKey → ByteStr

/-- Opaque model of pem.EncodeToMemory: block type header plus payload. -/
def pemEncodeToMemory (blockType : String) (b : ByteStr) : ByteStr :=
  blockType.data.map Char.toNat ++ b

/-- convertKeyToPEM (certs.go lines 40-48). -/
def convertKeyToPEM (env : KeygenEnv) (blockType : String) (k : RSAKey) : ByteStr :=
  pemEncodeToMemory blockType (env.marshalPKCS1 k)

/-- The IP list construction loop of NewCSR (certs.go lines 57-61): every
entry is parsed and appended, whatever the parse outcome. -/
def buildIPList (parseIP : String → Option ByteStr) : List String → List (Option ByteStr)
  | [] => []
  | ip :: rest => parseIP ip :: buildIPList parseIP rest

/-- The CSR template NewCSR fills in (certs.go lines 63-72). -/
def csrTemplate (env : KeygenEnv) (commonName : String)
    (hostList IPList : List String) : CSRTemplate :=
  { organization := ["PingCAP"], organizationalUnit := ["TiDB Operator"],
    commonName := commonName, dnsNames := hostList,
    ipAddresses := buildIPList env.parseIP IPList }

/-- NewCSR (certs.go lines 50-79): generate a key, build the template, create
the request, return raw CSR bytes and the PEM-encoded private key. -/
def newCSR (env : KeygenEnv) (commonName : String) (hostList IPList : List String) :
    Except GoErr (ByteStr × ByteStr) :=
  match env.genKey with
  | Except.error e => Except.error e
  | Except.ok privKey =>
    match env.createCertReq (csrTemplate env commonName hostList IPList) privKey with
    | Except.error e => Except.error e
    | Except.ok csr => Except.ok (csr, convertKeyToPEM env "RSA PRIVATE KEY" privKey)

theorem buildIPList_eq_map (parseIP : String → Option ByteStr) (l : List String) :
    buildIPList parseIP l = l.map parseIP := by
  induction l with
  | nil => rfl
  | cons ip rest ih => simp [buildIPList, ih]

/-- C8: the CSR generator parses every entry of the IP list; a malformed
entry (parse yields none, the nil net.IP) is not rejected and produces no
error: it is carried through into the request template as a null entry, and
NewCSR fails only through key generation or request construction. -/
theorem newCSR_malformed_ip_carried_through (env : KeygenEnv) (cn : String)
    (hostList IPList : List String) :
    ((csrTemplate env cn hostList IPList).ipAddresses = IPList.map env.parseIP) ∧
    (∀ s, s ∈ IPList → env.parseIP s = none →
       none ∈ (csrTemplate env cn hostList IPList).ipAddresses) ∧
    (∀ e, newCSR env cn hostList IPList = Except.error e →
       env.genKey = Except.error e ∨
       ∃ k, env.genKey = Except.ok k ∧
         env.createCertReq (csrTemplate env cn hostList IPList) k = Except.error e) := by
  refine ⟨buildIPList_eq_map env.parseIP IPList, ?_, ?_⟩
  · intro s hs hnone
    have : (csrTemplate env cn hostList IPList).ipAddresses = IPList.map env.parseIP :=
      buildIPList_eq_map env.parseIP IPList
    rw [this]
    exact hnone ▸ List.mem_map_of_mem env.parseIP hs
  · intro e he
    cases hg : env.genKey with
    | error e2 =>
      left
      simp [newCSR, hg] at he
      rw [he]
    | ok k =>
      right
      refine ⟨k, rfl, ?_⟩
      cases hc : env.createCertReq (csrTemplate env cn hostList IPList) k with
      | error e2 =>
        simp [newCSR, hg, hc] at he
        rw [he]
      | ok csr => simp [newCSR, hg, hc] at he

/-- Concrete keygen environment for the C8 witness: parsing always fails. -/
def kgW : KeygenEnv :=
  { genKey := Except.ok 0, parseIP := fun _ => none,
    createCertReq := fun _ _ => Except.ok [1], marshalPKCS1 := fun _ => [2] }

/-- Witness for C8 at a concrete malformed entry. -/
theorem newCSR_malformed_ip_witness :
    none ∈ (csrTemplate kgW "pd-0.db.svc" [] ["not-an-ip"]).ipAddresses :=
  (newCSR_malformed_ip_carried_through kgW "pd-0.db.svc" [] ["not-an-ip"]).2.1
    "not-an-ip" (by simp) rfl

/-- Ownership test of getCSR (cert_control.go lines 152-157): namespace,
managed-by and instance labels must all match this system. -/
def csrOwnedBy (csr : CSRres) (ns instanceName : String) : Bool :=
  getLabel csr.labels NamespaceLabelKey == ns &&
  getLabel csr.labels ManagedByLabelKey == getLabel labelNew ManagedByLabelKey &&
  getLabel csr.labels InstanceLabelKey == instanceName

/-- Injected failure outcomes of the control-plane calls one sendCSR
iteration can make; none means the call itself succeeds. -/
structure IterFail where
  getFail : Option GoErr
  deleteFail : Option GoErr
  createFail : Option GoErr
deriving DecidableEq, Repr

def noFail : IterFail := { getFail := none, deleteFail := none, createFail := none }

/-- getCSR (cert_control.go lines 140-159): an absent resource is no error
(nil, nil); an owned resource is returned; a foreign resource is an error. -/
def getCSRModel (getFail : Option GoErr) (w : World) (ns instanceName csrName : String) :
    Except GoErr (Option CSRres) :=
  match getFail with
  | some e => Except.error e
  | none =>
    match w.getCSRres csrName with
    | none => Except.ok none
    | some csr =>
      if csrOwnedBy csr ns instanceName then Except.ok (some csr)
      else Except.error ("CSR " ++ ns ++ "/" ++ csrName ++
        " already exist, but not created by tidb-operator, skip it")

/-- Ownership labels sendCSR stamps on a new CSR resource
(cert_control.go lines 200-203). -/
def ownershipLabels (ns instanceName : String) : List (String × String) :=
  [(NamespaceLabelKey, ns),
   (ManagedByLabelKey, getLabel labelNew ManagedByLabelKey),
   (InstanceLabelKey, instanceName)]

/-- The declared key usages of a submitted CSR (capi.UsageClientAuth,
capi.UsageServerAuth; cert_control.go lines 193-196). -/
def csrUsages : List String := ["client auth", "server auth"]

/-- The CSR resource object sendCSR submits (cert_control.go lines 181-203);
the uid is the one the API server assigns on creation. -/
def newCSRObject (ns instanceName : String) (rawCSR : ByteStr) (csrName : String)
    (uid : Nat) : CSRres :=
  { name := csrName, labels := ownershipLabels ns instanceName,
    request := pemEncodeToMemory "CERTIFICATE REQUEST" rawCSR,
    usages := csrUsages,
    status := { conditions := [], certificate := none },
    uid := uid }

deriving instance DecidableEq for Except

/-- Result of one sendCSR run, instrumented with the number of CSR create
and delete calls it made. -/
structure SendOut where
  result : Except GoErr CSRres
  world : World
  createCalls : Nat
  deleteCalls : Nat
deriving DecidableEq, Repr

/-- sendCSR (cert_control.go lines 161-211): look up the resource; fail on a
lookup error or a foreign resource; delete an owned stale resource and
recurse; otherwise create the resource. The Go recursion carries no explicit
bound, so the model uses fuel: none models a run that exceeds it. -/
def sendCSR (fails : Nat → IterFail) (ns instanceName : String) (rawCSR : ByteStr)
    (csrName : String) : Nat → Nat → World → Option SendOut
  | 0, _, _ => none
  | fuel + 1, iter, w =>
    match getCSRModel (fails iter).getFail w ns instanceName csrName with
    | Except.error e =>
      some { result := Except.error ("failed to create CSR for " ++ ns ++ "/" ++
               instanceName ++ ": " ++ csrName ++ ", error: " ++ e),
             world := w, createCalls := 0, deleteCalls := 0 }
    | Except.ok (some _) =>
      match (fails iter).deleteFail with
      | some e =>
        some { result := Except.error ("failed to delete exist old CSR for " ++ ns ++ "/" ++
                 instanceName ++ ": " ++ csrName ++ ", error: " ++ e),
               world := w, createCalls := 0, deleteCalls := 1 }
      | none =>
        match sendCSR fails ns instanceName rawCSR csrName fuel (iter + 1)
            (w.deleteCSR csrName) with
        | none => none
        | some s => some { s with deleteCalls := s.deleteCalls + 1 }
    | Except.ok none =>
      match (fails iter).createFail with
      | some e =>
        some { result := Except.error ("failed to create CSR for " ++ ns ++ "/" ++
                 instanceName ++ ": " ++ csrName ++ ", error: " ++ e),
               world := w, createCalls := 1, deleteCalls := 0 }
      | none =>
        let obj := newCSRObject ns instanceName rawCSR csrName w.nextUid
        some { result := Except.ok obj,
               world := { w.putCSR obj with nextUid := w.nextUid + 1 },
               createCalls := 1, deleteCalls := 0 }

theorem getCSRres_deleteCSR (w : World) (n : String) :
    (w.deleteCSR n).getCSRres n = none := by
  simp only [World.deleteCSR, World.getCSRres]
  have hfind : (w.csrs.filter (fun p => p.1 != n)).find? (fun p => p.1 == n) = none := by
    rw [List.find?_eq_none]
    intro p hp
    have h2 := (List.mem_filter.mp hp).2
    simp only [bne_iff_ne, ne_eq] at h2
    simp [beq_iff_eq, h2]
  rw [hfind]
  rfl

theorem deleteCSR_secrets (w : World) (n : String) :
    (w.deleteCSR n).secrets = w.secrets := rfl

theorem putCSR_secrets (w : World) (c : CSRres) :
    (w.putCSR c).secrets = w.secrets := rfl

/-- sendCSR never touches the secret store. -/
theorem sendCSR_preserves_secrets (fails : Nat → IterFail) (ns instanceName : String)
    (rawCSR : ByteStr) (csrName : String) :
    ∀ fuel iter w s, sendCSR fails ns instanceName rawCSR csrName fuel iter w = some s →
      s.world.secrets = w.secrets := by
  intro fuel
  induction fuel with
  | zero => intro iter w s h; simp [sendCSR] at h
  | succ f ih =>
    intro iter w s h
    rw [sendCSR] at h
    cases hg : getCSRModel (fails iter).getFail w ns instanceName csrName with
    | error e => rw [hg] at h; simp at h; rw [← h]
    | ok found =>
      cases found with
      | some c =>
        rw [hg] at h
        cases hd : (fails iter).deleteFail with
        | some e => rw [hd] at h; simp at h; rw [← h]
        | none =>
          rw [hd] at h
          simp only at h
          cases hr : sendCSR fails ns instanceName rawCSR csrName f (iter + 1)
              (w.deleteCSR csrName) with
          | none => rw [hr] at h; simp at h
          | some s2 =>
            rw [hr] at h
            simp at h
            have := ih (iter + 1) (w.deleteCSR csrName) s2 hr
            rw [← h]
            simpa [deleteCSR_secrets] using this
      | none =>
        rw [hg] at h
        cases hc : (fails iter).createFail with
        | some e => rw [hc] at h; simp at h; rw [← h]
        | none =>
          rw [hc] at h
          simp at h
          rw [← h]
          rfl

/-- C2: a CSR resource under the derived name whose ownership labels do not
all match this system makes the submission step return an error, and
neither deletes nor modifies that foreign resource (the world is unchanged
and no delete call is made). -/
theorem sendCSR_foreign_csr_error_no_modify
    (fails : Nat → IterFail) (ns instanceName : String) (rawCSR : ByteStr)
    (csrName : String) (w : World) (fuel : Nat) (fcsr : CSRres)
    (hget : (fails 0).getFail = none)
    (hfound : w.getCSRres csrName = some fcsr)
    (hforeign : csrOwnedBy fcsr ns instanceName = false) :
    ∃ e, sendCSR fails ns instanceName rawCSR csrName (fuel + 1) 0 w =
      some { result := Except.error e, world := w, createCalls := 0, deleteCalls := 0 } := by
  refine ⟨"failed to create CSR for " ++ ns ++ "/" ++ instanceName ++ ": " ++ csrName ++
    ", error: " ++ ("CSR " ++ ns ++ "/" ++ csrName ++
    " already exist, but not created by tidb-operator, skip it"), ?_⟩
  rw [sendCSR]
  simp [getCSRModel, hget, hfound, hforeign]

/-- Concrete foreign CSR for the C2 witness: empty labels never match the
managed-by marker. -/
def foreignCSRW : CSRres :=
  { name := "pd-0-peer", labels := [], request := [], usages := [],
    status := { conditions := [], certificate := none }, uid := 42 }

def foreignWorldW : World :=
  { secrets := [], csrs := [("pd-0-peer", foreignCSRW)], nextUid := 43 }

/-- Witness for C2 at a concrete foreign resource. -/
theorem sendCSR_foreign_csr_witness :
    ∃ e, sendCSR (fun _ => noFail) "db" "pd-0" [1] "pd-0-peer" 2 0 foreignWorldW =
      some { result := Except.error e, world := foreignWorldW,
             createCalls := 0, deleteCalls := 0 } :=
  sendCSR_foreign_csr_error_no_modify (fun _ => noFail) "db" "pd-0" [1] "pd-0-peer"
    foreignWorldW 1 foreignCSRW rfl (by decide) (by decide)

/-- One sendCSR iteration on a world without a resource under the name
terminates without deleting, making at most one create call. -/
theorem sendCSR_step_absent (fails : Nat → IterFail) (ns instanceName : String)
    (rawCSR : ByteStr) (csrName : String) (k iter : Nat) (w : World)
    (habs : w.getCSRres csrName = none) :
    ∃ s, sendCSR fails ns instanceName rawCSR csrName (k + 1) iter w = some s ∧
      s.deleteCalls = 0 ∧ s.createCalls ≤ 1 ∧
      ((fails iter).getFail = none → (fails iter).createFail = none →
        s.result = Except.ok (newCSRObject ns instanceName rawCSR csrName w.nextUid) ∧
        s.createCalls = 1) := by
  cases hg : (fails iter).getFail with
  | some e =>
    refine ⟨{ result := Except.error ("failed to create CSR for " ++ ns ++ "/" ++
                instanceName ++ ": " ++ csrName ++ ", error: " ++ e),
              world := w, createCalls := 0, deleteCalls := 0 }, ?_, rfl, Nat.zero_le 1, ?_⟩
    · rw [sendCSR]; simp [getCSRModel, hg]
    · intro h1 _; exact absurd h1 (by simp)
  | none =>
    cases hc : (fails iter).createFail with
    | some e =>
      refine ⟨{ result := Except.error ("failed to create CSR for " ++ ns ++ "/" ++
                  instanceName ++ ": " ++ csrName ++ ", error: " ++ e),
                world := w, createCalls := 1, deleteCalls := 0 }, ?_, rfl, Nat.le_refl 1, ?_⟩
      · rw [sendCSR]; simp [getCSRModel, hg, habs, hc]
      · intro _ h2; exact absurd h2 (by simp)
    | none =>
      refine ⟨{ result := Except.ok (newCSRObject ns instanceName rawCSR csrName w.nextUid),
                world := { w.putCSR (newCSRObject ns instanceName rawCSR csrName w.nextUid) with
                             nextUid := w.nextUid + 1 },
                createCalls := 1, deleteCalls := 0 }, ?_, rfl, Nat.le_refl 1, ?_⟩
      · rw [sendCSR]; simp [getCSRModel, hg, habs, hc]
      · intro _ _; exact ⟨rfl, rfl⟩

/-- A stale owned resource is deleted and creation is retried exactly once:
the recursive call runs on a world that no longer holds the resource. -/
theorem sendCSR_step_stale (fails : Nat → IterFail) (ns instanceName : String)
    (rawCSR : ByteStr) (csrName : String) (n iter : Nat) (w : World) (ocsr : CSRres)
    (hget : (fails iter).getFail = none)
    (hfound : w.getCSRres csrName = some ocsr)
    (howned : csrOwnedBy ocsr ns instanceName = true)
    (hdel : (fails iter).deleteFail = none) :
    ∃ s2, sendCSR fails ns instanceName rawCSR csrName (n + 1) (iter + 1)
        (w.deleteCSR csrName) = some s2 ∧
      sendCSR fails ns instanceName rawCSR csrName (n + 1 + 1) iter w =
        some { s2 with deleteCalls := s2.deleteCalls + 1 } := by
  obtain ⟨s2, hs2, hd2, hc2, _⟩ := sendCSR_step_absent fails ns instanceName rawCSR csrName
    n (iter + 1) (w.deleteCSR csrName) (getCSRres_deleteCSR w csrName)
  refine ⟨s2, hs2, ?_⟩
  rw [sendCSR]
  simp [getCSRModel, hget, hfound, howned, hdel, hs2]

/-- C3: the submission step terminates for every input once the fuel covers
one delete-then-recreate retry (two iterations): it always yields a result,
makes at most one delete and one create call, and on a stale owned resource
with no injected call failures it deletes it once, retries once, and
succeeds. -/
theorem sendCSR_terminates_bounded_retry
    (fails : Nat → IterFail) (ns instanceName : String) (rawCSR : ByteStr)
    (csrName : String) (w : World) (fuel : Nat) (hfuel : 2 ≤ fuel) :
    (∃ s, sendCSR fails ns instanceName rawCSR csrName fuel 0 w = some s ∧
       s.deleteCalls ≤ 1 ∧ s.createCalls ≤ 1) ∧
    (∀ ocsr, w.getCSRres csrName = some ocsr → csrOwnedBy ocsr ns instanceName = true →
       fails 0 = noFail → fails 1 = noFail →
       ∃ s csr, sendCSR fails ns instanceName rawCSR csrName fuel 0 w = some s ∧
         s.result = Except.ok csr ∧ s.deleteCalls = 1 ∧ s.createCalls = 1) := by
  obtain ⟨k, rfl⟩ : ∃ k, fuel = k + 1 + 1 := ⟨fuel - 2, by omega⟩
  constructor
  · cases hg : (fails 0).getFail with
    | some e =>
      refine ⟨{ result := Except.error ("failed to create CSR for " ++ ns ++ "/" ++
                  instanceName ++ ": " ++ csrName ++ ", error: " ++ e),
                world := w, createCalls := 0, deleteCalls := 0 }, ?_, Nat.zero_le 1, Nat.zero_le 1⟩
      rw [sendCSR]; simp [getCSRModel, hg]
    | none =>
      cases hf : w.getCSRres csrName with
      | none =>
        obtain ⟨s, hs, hd, hc, _⟩ := sendCSR_step_absent fails ns instanceName rawCSR csrName
          (k + 1) 0 w hf
        exact ⟨s, hs, by omega, hc⟩
      | some c =>
        cases ho : csrOwnedBy c ns instanceName with
        | false =>
          refine ⟨{ result := Except.error ("failed to create CSR for " ++ ns ++ "/" ++
                      instanceName ++ ": " ++ csrName ++ ", error: " ++
                      ("CSR " ++ ns ++ "/" ++ csrName ++
                       " already exist, but not created by tidb-operator, skip it")),
                    world := w, createCalls := 0, deleteCalls := 0 }, ?_, Nat.zero_le 1, Nat.zero_le 1⟩
          rw [sendCSR]; simp [getCSRModel, hg, hf, ho]
        | true =>
          cases hd : (fails 0).deleteFail with
          | some e =>
            refine ⟨{ result := Except.error ("failed to delete exist old CSR for " ++ ns ++
                        "/" ++ instanceName ++ ": " ++ csrName ++ ", error: " ++ e),
                      world := w, createCalls := 0, deleteCalls := 1 }, ?_, Nat.le_refl 1, Nat.zero_le 1⟩
            rw [sendCSR]; simp [getCSRModel, hg, hf, ho, hd]
          | none =>
            obtain ⟨s2, hs2, houter⟩ := sendCSR_step_stale fails ns instanceName rawCSR
              csrName k 0 w c hg hf ho hd
            obtain ⟨s2x, hs2x, hd2, hc2, _⟩ := sendCSR_step_absent fails ns instanceName
              rawCSR csrName k 1 (w.deleteCSR csrName) (getCSRres_deleteCSR w csrName)
            rw [hs2x] at hs2
            cases hs2
            refine ⟨_, houter, ?_, ?_⟩
            · simp [hd2]
            · simpa using hc2
  · intro ocsr hfound howned h0 h1
    have hg : (fails 0).getFail = none := by rw [h0]; rfl
    have hd : (fails 0).deleteFail = none := by rw [h0]; rfl
    obtain ⟨s2, hs2, houter⟩ := sendCSR_step_stale fails ns instanceName rawCSR
      csrName k 0 w ocsr hg hfound howned hd
    obtain ⟨s2x, hs2x, hd2, hc2, hres⟩ := sendCSR_step_absent fails ns instanceName
      rawCSR csrName k 1 (w.deleteCSR csrName) (getCSRres_deleteCSR w csrName)
    rw [hs2x] at hs2
    cases hs2
    obtain ⟨hres1, hres2⟩ := hres (by rw [h1]; rfl) (by rw [h1]; rfl)
    exact ⟨_, _, houter, hres1, by simp [hd2], by simpa using hres2⟩

/-- Concrete stale owned CSR for the C3 witness. -/
def staleCSRW : CSRres :=
  { name := "pd-0-peer", labels := ownershipLabels "db" "pd-0", request := [],
    usages := csrUsages, status := { conditions := [], certificate := none }, uid := 5 }

def staleWorldW : World :=
  { secrets := [], csrs := [("pd-0-peer", staleCSRW)], nextUid := 6 }

/-- Witness for C3: with fuel two, a stale owned resource is deleted once,
creation is retried once, and the run terminates successfully. -/
theorem sendCSR_terminates_bounded_retry_witness :
    ∃ s csr, sendCSR (fun _ => noFail) "db" "pd-0" [1] "pd-0-peer" 2 0 staleWorldW = some s ∧
      s.result = Except.ok csr ∧ s.deleteCalls = 1 ∧ s.createCalls = 1 :=
  (sendCSR_terminates_bounded_retry (fun _ => noFail) "db" "pd-0" [1] "pd-0-peer"
      staleWorldW 2 (by omega)).2 staleCSRW (by decide) (by decide) rfl rfl

/-- The condition sendCSR-created CSRs get appended by approveCSR
(cert_control.go lines 214-218). -/
def approvedCondition : CSRCondition :=
  { condType := CertificateApproved, reason := "AutoApproved",
    message := "Auto approved by TiDB Operator" }

/-- Local effect of approveCSR (cert_control.go line 214): the Approved
condition is appended to the status of the locally held CSR object. -/
def approveLocal (csr : CSRres) : CSRres :=
  { csr with status := { csr.status with
      conditions := csr.status.conditions ++ [approvedCondition] } }

/-- One delivery of the select loop in Create (cert_control.go lines
104-137): either the ten-second tick fires, or the watch channel delivers
an event carrying a CSR object. The channel closing is the end of the
event list. -/
inductive LoopEvent where
  | tick : LoopEvent
  | watch : CSRres → LoopEvent
deriving DecidableEq, Repr

/-- Outcome of the wait loop: the channel closed without a qualifying event,
or a qualifying signed event arrived. -/
inductive WaitResult where
  | closed : WaitResult
  | signed : CSRres → WaitResult
deriving DecidableEq, Repr

def defaultCond : CSRCondition := { condType := "", reason := "", message := "" }

/-- The progression test of the wait loop (cert_control.go lines 118-123):
the UID of the event object must match the locally created CSR, the
condition at index (number of conditions of the LOCAL object) - 1 of the
EVENT object must be Approved, and the certificate field must be non-nil.
The Go code indexes the event conditions with the local length; out of
range it would panic, which the model totalizes with a default (the index
is 0 in every run of Create, where the local object holds exactly the one
condition appended by approval). -/
def qualifies (localCSR u : CSRres) : Bool :=
  u.uid == localCSR.uid &&
  (u.status.conditions.getD (localCSR.status.conditions.length - 1) defaultCond).condType
    == CertificateApproved &&
  u.status.certificate.isSome

/-- The wait loop of Create (cert_control.go lines 104-137): ticks only log
and continue; events with no status conditions are skipped; the first
event passing the progression test ends the loop; channel close without
one is a failure. -/
def waitLoop (localCSR : CSRres) : List LoopEvent → WaitResult
  | [] => WaitResult.closed
  | LoopEvent.tick :: rest => waitLoop localCSR rest
  | LoopEvent.watch u :: rest =>
    if u.status.conditions.length == 0 then waitLoop localCSR rest
    else if qualifies localCSR u then WaitResult.signed u
    else waitLoop localCSR rest

/-- The progression condition exactly as the claim words it, for comparison
with the code: the latest condition of the event status is Approved and the
signed-certificate bytes are non-empty. -/
def specQualifies (localCSR u : CSRres) : Prop :=
  u.uid = localCSR.uid ∧
  (u.status.conditions.getLastD defaultCond).condType = CertificateApproved ∧
  u.status.certificate.getD [] ≠ []

/-- Local CSR object right after approval, as in every run of Create:
exactly one condition, the Approved one. -/
def lcC4 : CSRres :=
  { name := "pd-0-peer", labels := ownershipLabels "db" "pd-0", request := [],
    usages := csrUsages,
    status := { conditions := [approvedCondition], certificate := none }, uid := 7 }

/-- An event whose conditions list grew: its latest condition is Approved,
its certificate is present and non-empty, its UID matches — yet the code
reads the condition at index 0, finds a non-Approved type, and ignores it. -/
def evC4 : CSRres :=
  { name := "pd-0-peer", labels := ownershipLabels "db" "pd-0", request := [],
    usages := csrUsages,
    status := { conditions := [{ condType := "Pending", reason := "", message := "" },
                               approvedCondition],
                certificate := some [1, 2] }, uid := 7 }

/-- Counterexample to C4 as stated: an event matching the claim wording
(UID match, latest condition Approved, non-empty certificate bytes) on
which the wait loop does NOT progress: the loop runs to channel close. -/
theorem waitLoop_latest_condition_counterexample :
    specQualifies lcC4 evC4 ∧
    waitLoop lcC4 [LoopEvent.watch evC4] = WaitResult.closed := by
  constructor
  · refine ⟨rfl, rfl, ?_⟩
    decide
  · rfl

/-- C4 (amended): with the local CSR holding exactly the one condition
appended at approval, the wait loop progresses to persistence exactly on an
event whose UID matches the local CSR, whose condition at index 0 (the
length of the local condition list minus one) has type Approved, and whose
certificate field is present (non-nil, possibly empty); every other event,
including events with no conditions, is skipped and the loop continues. -/
theorem waitLoop_progress_characterization (lc : CSRres)
    (hlen : lc.status.conditions.length = 1) :
    (∀ u tr, waitLoop lc tr = WaitResult.signed u →
       u.uid = lc.uid ∧
       (u.status.conditions.getD 0 defaultCond).condType = CertificateApproved ∧
       u.status.certificate.isSome = true ∧ u.status.conditions.length ≠ 0) ∧
    (∀ u rest, u.uid = lc.uid →
       (u.status.conditions.getD 0 defaultCond).condType = CertificateApproved →
       u.status.certificate.isSome = true → u.status.conditions.length ≠ 0 →
       waitLoop lc (LoopEvent.watch u :: rest) = WaitResult.signed u) := by
  have hidx : lc.status.conditions.length - 1 = 0 := by rw [hlen]
  constructor
  · intro u tr
    induction tr with
    | nil => intro h; exact absurd h (by simp [waitLoop])
    | cons ev rest ih =>
      intro h
      cases ev with
      | tick => exact ih (by simpa [waitLoop] using h)
      | watch v =>
        rw [waitLoop] at h
        by_cases hz : v.status.conditions.length = 0
        · rw [if_pos (by simpa using hz)] at h
          exact ih h
        · rw [if_neg (by simpa using hz)] at h
          by_cases hq : qualifies lc v = true
          · rw [if_pos hq] at h
            cases h
            unfold qualifies at hq
            rw [hidx] at hq
            simp only [Bool.and_eq_true, beq_iff_eq] at hq
            exact ⟨hq.1.1, hq.1.2, hq.2, hz⟩
          · rw [if_neg hq] at h
            exact ih h
  · intro u rest h1 h2 h3 h4
    rw [waitLoop]
    rw [if_neg (by simpa using h4)]
    rw [if_pos ?hq]
    case hq =>
      unfold qualifies
      rw [hidx]
      simp only [Bool.and_eq_true, beq_iff_eq]
      exact ⟨⟨h1, h2⟩, h3⟩

/-- Witness for C4 (amended): a concrete qualifying event progresses. -/
def evC4ok : CSRres :=
  { name := "pd-0-peer", labels := ownershipLabels "db" "pd-0", request := [],
    usages := csrUsages,
    status := { conditions := [approvedCondition], certificate := some [1, 2] }, uid := 7 }

theorem waitLoop_progress_witness :
    waitLoop lcC4 [LoopEvent.watch evC4ok] = WaitResult.signed evC4ok :=
  (waitLoop_progress_characterization lcC4 rfl).2 evC4ok [] rfl rfl rfl (by decide)

/-- Events that are ticks, dropped by the filter below. -/
def isWatchEv : LoopEvent → Bool
  | LoopEvent.tick => false
  | LoopEvent.watch _ => true

def countTicks (tr : List LoopEvent) : Nat :=
  (tr.filter (fun e => !isWatchEv e)).length

/-- Modelled from the stdlib contract of time.After: a channel returned by
time.After delivers exactly one value. Create builds its tick channel with
one such call before the loop (cert_control.go line 90), so over the whole
wait the tick source fires at most this many times. -/
def timeAfterFirings : Nat := 1

/-- The server-side wait bound of the watch (cert_control.go line 89). -/
def fiveMinuteWaitSeconds : Nat := 300

/-- The tick interval (cert_control.go line 90). -/
def tickIntervalSeconds : Nat := 10

/-- A trace the code can actually produce: the single-shot tick channel
fires at most once. -/
def admissibleTrace (tr : List LoopEvent) : Prop :=
  countTicks tr ≤ timeAfterFirings

/-- Counterexample to C5 as stated: the claim has the tick firing every ten
seconds for the whole five-minute wait, i.e. many times, but the tick
channel of the code delivers at most one value. -/
theorem tick_not_periodic_counterexample :
    ¬ (fiveMinuteWaitSeconds / tickIntervalSeconds ≤ timeAfterFirings) := by
  decide

/-- C5 (amended): the ten-second tick fires at most once during the wait
(the tick channel is single-shot); a firing only logs and continues the
loop, and ticks never by themselves end the wait: the outcome of the loop
is the outcome on the watch events alone. -/
theorem tick_never_ends_wait (lc : CSRres) (tr : List LoopEvent)
    (h : admissibleTrace tr) :
    countTicks tr ≤ 1 ∧ waitLoop lc tr = waitLoop lc (tr.filter isWatchEv) := by
  refine ⟨h, ?_⟩
  clear h
  induction tr with
  | nil => rfl
  | cons ev rest ih =>
    cases ev with
    | tick => simpa [waitLoop, isWatchEv, List.filter] using ih
    | watch u =>
      rw [waitLoop]
      by_cases hz : u.status.conditions.length == 0
      · simp only [List.filter, isWatchEv]
        rw [waitLoop]
        rw [if_pos hz, if_pos hz]
        exact ih
      · simp only [List.filter, isWatchEv]
        rw [waitLoop]
        rw [if_neg hz, if_neg hz]
        by_cases hq : qualifies lc u = true
        · rw [if_pos hq, if_pos hq]
        · rw [if_neg hq, if_neg hq]
          exact ih

/-- Witness for C5 at a concrete trace holding one tick. -/
theorem tick_never_ends_wait_witness :
    countTicks [LoopEvent.tick, LoopEvent.watch evC4ok] ≤ 1 ∧
    waitLoop lcC4 [LoopEvent.tick, LoopEvent.watch evC4ok] =
      waitLoop lcC4 ([LoopEvent.tick, LoopEvent.watch evC4ok].filter isWatchEv) :=
  tick_never_ends_wait lcC4 [LoopEvent.tick, LoopEvent.watch evC4ok]
    (by unfold admissibleTrace; decide)

/-- Labels SaveToSecret stamps on the Credential Secret
(cert_control.go lines 261-265). -/
def secretLabels (ns instanceName component : String) : List (String × String) :=
  [(NamespaceLabelKey, ns),
   (ManagedByLabelKey, getLabel labelNew ManagedByLabelKey),
   (InstanceLabelKey, instanceName),
   (ComponentLabelKey, component)]

/-- SaveToSecret (cert_control.go lines 247-270): build the Secret named
instance-suffix and create it; an injected failure or an existing secret of
the same name (a create conflict) is the returned error. -/
def saveToSecret (saveFail : Option GoErr) (w : World)
    (ns instanceName component suffix : String) (cert key : ByteStr) :
    Option GoErr × World :=
  let secretName := secretNameOf instanceName suffix
  match saveFail with
  | some e => (some e, w)
  | none =>
    match w.getSecret ns secretName with
    | some _ => (some ("secret " ++ ns ++ "/" ++ secretName ++ " already exists"), w)
    | none =>
      (none, w.putSecret ns
        { name := secretName, labels := secretLabels ns instanceName component,
          data := [("cert", cert), ("key", key)] })

/-- All oracle inputs one run of Create consumes: the crypto outcomes of the
usability check, the keygen outcomes, the injected control-plane failures of
the submission iterations, the fuel bounding the Go recursion of sendCSR,
the approval and watch-open outcomes, the delivered event trace, and the
outcomes of the final secret create and CSR delete calls. -/
structure CreateEnv where
  crypto : CryptoEnv
  keygen : KeygenEnv
  iterFails : Nat → IterFail
  sendFuel : Nat
  approveFail : Option GoErr
  watchOpenFail : Option GoErr
  trace : List LoopEvent
  saveFail : Option GoErr
  finalDeleteFail : Option GoErr

/-- Return value of Create: success, an error, or fuel exhaustion of the
unbounded Go recursion inside sendCSR. -/
inductive CreateRet where
  | ok : CreateRet
  | err : GoErr → CreateRet
  | diverged : CreateRet
deriving DecidableEq, Repr

/-- Observable outcome of one Create run: the returned value, the final
world, whether NewCSR was invoked (fresh key material generated), and how
many CSR create and delete calls were made. -/
structure CreateOutcome where
  ret : CreateRet
  world : World
  newCSRInvoked : Bool
  csrCreates : Nat
  csrDeletes : Nat
deriving DecidableEq, Repr

/-- Create (cert_control.go lines 57-138): derive the name, short-circuit if
the secret checks out, generate key material, submit the CSR, approve it,
watch, and on a qualifying signed event persist the certificate and delete
the consumed CSR; the delete result is the final return value. -/
def createCert (env : CreateEnv) (ns instanceName commonName : String)
    (hostList IPList : List String) (component suffix : String) (w : World) :
    CreateOutcome :=
  let csrName := csrNameOf instanceName suffix
  if checkSecret env.crypto (loadFromSecret w ns csrName) then
    { ret := CreateRet.ok, world := w, newCSRInvoked := false,
      csrCreates := 0, csrDeletes := 0 }
  else
    match newCSR env.keygen commonName hostList IPList with
    | Except.error e =>
      { ret := CreateRet.err ("fail to generate new key and certificate for " ++ ns ++
          "/" ++ csrName ++ ", " ++ e),
        world := w, newCSRInvoked := true, csrCreates := 0, csrDeletes := 0 }
    | Except.ok (rawCSR, key) =>
      match sendCSR env.iterFails ns instanceName rawCSR csrName env.sendFuel 0 w with
      | none =>
        { ret := CreateRet.diverged, world := w, newCSRInvoked := true,
          csrCreates := 0, csrDeletes := 0 }
      | some s =>
        match s.result with
        | Except.error e =>
          { ret := CreateRet.err e, world := s.world, newCSRInvoked := true,
            csrCreates := s.createCalls, csrDeletes := s.deleteCalls }
        | Except.ok csr0 =>
          let localCSR := approveLocal csr0
          match env.approveFail with
          | some e =>
            { ret := CreateRet.err ("error updating approval for csr: " ++ e),
              world := s.world, newCSRInvoked := true,
              csrCreates := s.createCalls, csrDeletes := s.deleteCalls }
          | none =>
            let w2 := s.world.putCSR localCSR
            match env.watchOpenFail with
            | some e =>
              { ret := CreateRet.err e, world := w2, newCSRInvoked := true,
                csrCreates := s.createCalls, csrDeletes := s.deleteCalls }
            | none =>
              match waitLoop localCSR env.trace with
              | WaitResult.closed =>
                { ret := CreateRet.err ("fail to get signed certificate for " ++ csrName),
                  world := w2, newCSRInvoked := true,
                  csrCreates := s.createCalls, csrDeletes := s.deleteCalls }
              | WaitResult.signed u =>
                match saveToSecret env.saveFail w2 ns instanceName component suffix
                    (u.status.certificate.getD []) key with
                | (some e, w3) =>
                  { ret := CreateRet.err e, world := w3, newCSRInvoked := true,
                    csrCreates := s.createCalls, csrDeletes := s.deleteCalls }
                | (none, w3) =>
                  match env.finalDeleteFail with
                  | some e =>
                    { ret := CreateRet.err e, world := w3, newCSRInvoked := true,
                      csrCreates := s.createCalls, csrDeletes := s.deleteCalls }
                  | none =>
                    { ret := CreateRet.ok, world := w3.deleteCSR csrName,
                      newCSRInvoked := true,
                      csrCreates := s.createCalls, csrDeletes := s.deleteCalls + 1 }

theorem getSecret_putSecret_same (w : World) (ns : String) (s : SecretObj) :
    (w.putSecret ns s).getSecret ns s.name = some s := by
  simp [World.putSecret, World.getSecret, List.find?]

theorem putSecret_csrs (w : World) (ns : String) (s : SecretObj) :
    (w.putSecret ns s).csrs = w.csrs := rfl

theorem checkSecret_true_load_ok (env : CryptoEnv) (load : Except GoErr (ByteStr × ByteStr))
    (h : checkSecret env load = true) : ∃ p, load = Except.ok p := by
  cases load with
  | error e => simp [checkSecret] at h
  | ok p => exact ⟨p, rfl⟩

theorem loadFromSecret_ok_getSecret (w : World) (ns n : String)
    (p : ByteStr × ByteStr) (h : loadFromSecret w ns n = Except.ok p) :
    ∃ sec, w.getSecret ns n = some sec := by
  cases hg : w.getSecret ns n with
  | none => simp [loadFromSecret, hg] at h
  | some sec => exact ⟨sec, rfl⟩

/-- C6: if the watch channel closes before a qualifying signed event, Create
returns the error naming the CSR resource, and no Credential Secret is
created in that invocation (the secret store is unchanged). -/
theorem create_watch_closed_error_no_secret
    (env : CreateEnv) (ns instanceName commonName : String)
    (hostList IPList : List String) (component suffix : String) (w : World)
    (rawCSR key : ByteStr) (csr0 : CSRres) (s : SendOut)
    (hchk : checkSecret env.crypto
      (loadFromSecret w ns (csrNameOf instanceName suffix)) = false)
    (hgen : newCSR env.keygen commonName hostList IPList = Except.ok (rawCSR, key))
    (hsend : sendCSR env.iterFails ns instanceName rawCSR (csrNameOf instanceName suffix)
        env.sendFuel 0 w = some s)
    (hres : s.result = Except.ok csr0)
    (happ : env.approveFail = none)
    (hwo : env.watchOpenFail = none)
    (hwl : waitLoop (approveLocal csr0) env.trace = WaitResult.closed) :
    (createCert env ns instanceName commonName hostList IPList component suffix w).ret =
      CreateRet.err ("fail to get signed certificate for " ++ csrNameOf instanceName suffix) ∧
    (createCert env ns instanceName commonName hostList IPList component suffix w).world.secrets
      = w.secrets := by
  have hsec := sendCSR_preserves_secrets env.iterFails ns instanceName rawCSR
    (csrNameOf instanceName suffix) env.sendFuel 0 w s hsend
  have hred : createCert env ns instanceName commonName hostList IPList component suffix w =
      { ret := CreateRet.err ("fail to get signed certificate for " ++
          csrNameOf instanceName suffix),
        world := s.world.putCSR (approveLocal csr0), newCSRInvoked := true,
        csrCreates := s.createCalls, csrDeletes := s.deleteCalls } := by
    simp only [createCert, hchk, hgen, hsend, hres, happ, hwo, hwl]
    simp
  rw [hred]
  exact ⟨rfl, hsec⟩

/-- Concrete environment for the C6 witness: the channel closes at once. -/
def envC6 : CreateEnv :=
  { crypto := { pemDecode := fun _ => none, parseCert := fun b => Except.ok b,
                readCACerts := Except.ok [], verify := fun _ _ _ => Except.ok (),
                x509KeyPair := fun _ _ => Except.ok () },
    keygen := { genKey := Except.ok 0, parseIP := fun _ => none,
                createCertReq := fun _ _ => Except.ok [3], marshalPKCS1 := fun _ => [4] },
    iterFails := fun _ => noFail, sendFuel := 2, approveFail := none,
    watchOpenFail := none, trace := [], saveFail := none, finalDeleteFail := none }

def csr0W : CSRres := newCSRObject "db" "pd-0" [3] "pd-0-peer" 0

def sendOutW : SendOut :=
  { result := Except.ok csr0W,
    world := { emptyWorld.putCSR csr0W with nextUid := 1 },
    createCalls := 1, deleteCalls := 0 }

/-- Witness for C6 at a concrete run whose channel closes immediately. -/
theorem create_watch_closed_witness :
    (createCert envC6 "db" "pd-0" "pd-0.db.svc" [] [] "pd" "peer" emptyWorld).ret =
      CreateRet.err ("fail to get signed certificate for " ++ csrNameOf "pd-0" "peer") ∧
    (createCert envC6 "db" "pd-0" "pd-0.db.svc" [] [] "pd" "peer" emptyWorld).world.secrets
      = emptyWorld.secrets :=
  create_watch_closed_error_no_secret envC6 "db" "pd-0" "pd-0.db.svc" [] [] "pd" "peer"
    emptyWorld [3] (pemEncodeToMemory "RSA PRIVATE KEY" [4]) csr0W sendOutW
    (by decide) rfl (by decide) rfl rfl rfl rfl

/-- C7: after a qualifying signed event, successful persistence is followed
by deletion of the consumed CSR resource, the delete result being the final
return value (success, or the delete error with the resource left as it
was); a persistence failure is returned as the error and the world is left
exactly as before persistence (the CSR resource is not deleted). -/
theorem create_persist_delete_semantics
    (env : CreateEnv) (ns instanceName commonName : String)
    (hostList IPList : List String) (component suffix : String) (w : World)
    (rawCSR key : ByteStr) (csr0 u : CSRres) (s : SendOut)
    (hchk : checkSecret env.crypto
      (loadFromSecret w ns (csrNameOf instanceName suffix)) = false)
    (hgen : newCSR env.keygen commonName hostList IPList = Except.ok (rawCSR, key))
    (hsend : sendCSR env.iterFails ns instanceName rawCSR (csrNameOf instanceName suffix)
        env.sendFuel 0 w = some s)
    (hres : s.result = Except.ok csr0)
    (happ : env.approveFail = none)
    (hwo : env.watchOpenFail = none)
    (hwl : waitLoop (approveLocal csr0) env.trace = WaitResult.signed u) :
    ((env.saveFail = none →
      (s.world.putCSR (approveLocal csr0)).getSecret ns
          (secretNameOf instanceName suffix) = none →
      (env.finalDeleteFail = none →
         (createCert env ns instanceName commonName hostList IPList component suffix w).ret
           = CreateRet.ok ∧
         (createCert env ns instanceName commonName hostList IPList component suffix
           w).world.getCSRres (csrNameOf instanceName suffix) = none ∧
         ∃ sec, (createCert env ns instanceName commonName hostList IPList component suffix
           w).world.getSecret ns (secretNameOf instanceName suffix) = some sec) ∧
      (∀ e, env.finalDeleteFail = some e →
         (createCert env ns instanceName commonName hostList IPList component suffix w).ret
           = CreateRet.err e ∧
         (createCert env ns instanceName commonName hostList IPList component suffix
           w).world.getCSRres (csrNameOf instanceName suffix) =
           (s.world.putCSR (approveLocal csr0)).getCSRres (csrNameOf instanceName suffix) ∧
         ∃ sec, (createCert env ns instanceName commonName hostList IPList component suffix
           w).world.getSecret ns (secretNameOf instanceName suffix) = some sec)) ∧
     (∀ e, env.saveFail = some e →
       (createCert env ns instanceName commonName hostList IPList component suffix w).ret
         = CreateRet.err e ∧
       (createCert env ns instanceName commonName hostList IPList component suffix w).world
         = s.world.putCSR (approveLocal csr0))) := by
  constructor
  · intro hsf hempty
    constructor
    · intro hdf
      have hred : createCert env ns instanceName commonName hostList IPList component suffix w
          = { ret := CreateRet.ok,
              world := ((s.world.putCSR (approveLocal csr0)).putSecret ns
                { name := secretNameOf instanceName suffix,
                  labels := secretLabels ns instanceName component,
                  data := [("cert", u.status.certificate.getD []),
                           ("key", key)] }).deleteCSR (csrNameOf instanceName suffix),
              newCSRInvoked := true, csrCreates := s.createCalls,
              csrDeletes := s.deleteCalls + 1 } := by
        simp only [createCert, hchk, hgen, hsend, hres, happ, hwo, hwl, saveToSecret,
          hsf, hempty, hdf]
        simp
      rw [hred]
      refine ⟨rfl, getCSRres_deleteCSR _ _, ?_⟩
      exact ⟨_, getSecret_putSecret_same (s.world.putCSR (approveLocal csr0)) ns _⟩
    · intro e hdf
      have hred : createCert env ns instanceName commonName hostList IPList component suffix w
          = { ret := CreateRet.err e,
              world := (s.world.putCSR (approveLocal csr0)).putSecret ns
                { name := secretNameOf instanceName suffix,
                  labels := secretLabels ns instanceName component,
                  data := [("cert", u.status.certificate.getD []),
                           ("key", key)] },
              newCSRInvoked := true, csrCreates := s.createCalls,
              csrDeletes := s.deleteCalls } := by
        simp only [createCert, hchk, hgen, hsend, hres, happ, hwo, hwl, saveToSecret,
          hsf, hempty, hdf]
        simp
      rw [hred]
      refine ⟨rfl, rfl, ?_⟩
      exact ⟨_, getSecret_putSecret_same (s.world.putCSR (approveLocal csr0)) ns _⟩
  · intro e hsf
    have hred : createCert env ns instanceName commonName hostList IPList component suffix w
        = { ret := CreateRet.err e, world := s.world.putCSR (approveLocal csr0),
            newCSRInvoked := true, csrCreates := s.createCalls,
            csrDeletes := s.deleteCalls } := by
      simp only [createCert, hchk, hgen, hsend, hres, happ, hwo, hwl, saveToSecret, hsf]
      simp
    rw [hred]
    exact ⟨rfl, rfl⟩

/-- A signed event qualifying against the locally approved CSR of the
concrete runs below. -/
def evSigned : CSRres :=
  { name := "pd-0-peer", labels := ownershipLabels "db" "pd-0",
    request := pemEncodeToMemory "CERTIFICATE REQUEST" [3], usages := csrUsages,
    status := { conditions := [approvedCondition], certificate := some [9] }, uid := 0 }

def envC7 : CreateEnv := { envC6 with trace := [LoopEvent.watch evSigned] }

/-- Witness for C7: a concrete run through persistence and deletion. -/
theorem create_persist_delete_witness :
    (createCert envC7 "db" "pd-0" "pd-0.db.svc" [] [] "pd" "peer" emptyWorld).ret
      = CreateRet.ok ∧
    (createCert envC7 "db" "pd-0" "pd-0.db.svc" [] [] "pd" "peer"
        emptyWorld).world.getCSRres (csrNameOf "pd-0" "peer") = none ∧
    ∃ sec, (createCert envC7 "db" "pd-0" "pd-0.db.svc" [] [] "pd" "peer"
        emptyWorld).world.getSecret "db" (secretNameOf "pd-0" "peer") = some sec :=
  ((create_persist_delete_semantics envC7 "db" "pd-0" "pd-0.db.svc" [] [] "pd" "peer"
      emptyWorld [3] (pemEncodeToMemory "RSA PRIVATE KEY" [4]) csr0W evSigned sendOutW
      (by decide) rfl (by decide) rfl rfl rfl (by decide)).1 rfl (by decide)).1 rfl

/-- A successful Create run with a non-empty suffix leaves a secret under the
very name Create checks: either the check already found one, or the run
persisted one there (with a non-empty suffix the checked name and the
persisted name coincide). -/
theorem createOk_secret_present (env : CreateEnv) (ns instanceName commonName : String)
    (hostList IPList : List String) (component suffix : String) (w : World)
    (hsuf : suffix ≠ "")
    (hok : (createCert env ns instanceName commonName hostList IPList component suffix
      w).ret = CreateRet.ok) :
    ∃ sec, (createCert env ns instanceName commonName hostList IPList component suffix
      w).world.getSecret ns (csrNameOf instanceName suffix) = some sec := by
  have hname : csrNameOf instanceName suffix = secretNameOf instanceName suffix := by
    simp [csrNameOf, secretNameOf, hsuf]
  cases hchk : checkSecret env.crypto
      (loadFromSecret w ns (csrNameOf instanceName suffix)) with
  | true =>
    have hred : createCert env ns instanceName commonName hostList IPList component suffix w
        = { ret := CreateRet.ok, world := w, newCSRInvoked := false,
            csrCreates := 0, csrDeletes := 0 } := by
      simp only [createCert, hchk]
      simp
    rw [hred]
    obtain ⟨p, hp⟩ := checkSecret_true_load_ok env.crypto _ hchk
    exact loadFromSecret_ok_getSecret w ns _ p hp
  | false =>
    cases hgen : newCSR env.keygen commonName hostList IPList with
    | error e => simp [createCert, hchk, hgen] at hok
    | ok p =>
      obtain ⟨rawCSR, key⟩ := p
      cases hsend : sendCSR env.iterFails ns instanceName rawCSR
          (csrNameOf instanceName suffix) env.sendFuel 0 w with
      | none => simp [createCert, hchk, hgen, hsend] at hok
      | some s =>
        cases hres : s.result with
        | error e => simp [createCert, hchk, hgen, hsend, hres] at hok
        | ok csr0 =>
          cases happ : env.approveFail with
          | some e => simp [createCert, hchk, hgen, hsend, hres, happ] at hok
          | none =>
            cases hwo : env.watchOpenFail with
            | some e => simp [createCert, hchk, hgen, hsend, hres, happ, hwo] at hok
            | none =>
              cases hwl : waitLoop (approveLocal csr0) env.trace with
              | closed =>
                simp [createCert, hchk, hgen, hsend, hres, happ, hwo, hwl] at hok
              | signed u =>
                cases hsf : env.saveFail with
                | some e =>
                  simp [createCert, hchk, hgen, hsend, hres, happ, hwo, hwl,
                    saveToSecret, hsf] at hok
                | none =>
                  cases hemp : (s.world.putCSR (approveLocal csr0)).getSecret ns
                      (secretNameOf instanceName suffix) with
                  | some sec0 =>
                    simp [createCert, hchk, hgen, hsend, hres, happ, hwo, hwl,
                      saveToSecret, hsf, hemp] at hok
                  | none =>
                    cases hdf : env.finalDeleteFail with
                    | some e =>
                      simp [createCert, hchk, hgen, hsend, hres, happ, hwo, hwl,
                        saveToSecret, hsf, hemp, hdf] at hok
                    | none =>
                      have hred : createCert env ns instanceName commonName hostList IPList
                          component suffix w
                          = { ret := CreateRet.ok,
                              world := ((s.world.putCSR (approveLocal csr0)).putSecret ns
                                { name := secretNameOf instanceName suffix,
                                  labels := secretLabels ns instanceName component,
                                  data := [("cert", u.status.certificate.getD []),
                                           ("key", key)] }).deleteCSR
                                (csrNameOf instanceName suffix),
                              newCSRInvoked := true, csrCreates := s.createCalls,
                              csrDeletes := s.deleteCalls + 1 } := by
                        simp only [createCert, hchk, hgen, hsend, hres, happ, hwo, hwl,
                          saveToSecret, hsf, hemp, hdf]
                        simp
                      rw [hred, hname]
                      exact ⟨_, getSecret_putSecret_same
                        (s.world.putCSR (approveLocal csr0)) ns _⟩

/-- A validator environment that deems every present cert/key pair usable. -/
def CryptoEnv.acceptsAll (e : CryptoEnv) : Prop :=
  ∀ cb kb : ByteStr, checkSecret e (Except.ok (cb, kb)) = true

/-- C1 (amended): for an identity descriptor with a NON-EMPTY suffix, if a
Create run succeeds and the validator accepts the persisted pair, a second
Create call with the same descriptor short-circuits at the secret check: it
returns success, generates no new key material, makes no CSR create or
delete call, and leaves the world unchanged. (With an empty suffix the
checked name and the persisted name differ and the second call is NOT a
no-op; see the counterexample.) -/
theorem create_second_call_noop_of_nonempty_suffix
    (env1 env2 : CreateEnv) (ns instanceName commonName : String)
    (hostList IPList : List String) (component suffix : String) (w : World)
    (hsuf : suffix ≠ "")
    (hok : (createCert env1 ns instanceName commonName hostList IPList component suffix
      w).ret = CreateRet.ok)
    (hacc : env2.crypto.acceptsAll) :
    createCert env2 ns instanceName commonName hostList IPList component suffix
      (createCert env1 ns instanceName commonName hostList IPList component suffix w).world
      = { ret := CreateRet.ok,
          world := (createCert env1 ns instanceName commonName hostList IPList component
            suffix w).world,
          newCSRInvoked := false, csrCreates := 0, csrDeletes := 0 } := by
  obtain ⟨sec, hsec⟩ := createOk_secret_present env1 ns instanceName commonName hostList
    IPList component suffix w hsuf hok
  generalize hW : (createCert env1 ns instanceName commonName hostList IPList component
    suffix w).world = w1 at hsec ⊢
  have hchk2 : checkSecret env2.crypto (loadFromSecret w1 ns
      (csrNameOf instanceName suffix)) = true := by
    have hload : loadFromSecret w1 ns (csrNameOf instanceName suffix)
        = Except.ok (dataField sec.data "cert", dataField sec.data "key") := by
      simp [loadFromSecret, hsec]
    rw [hload]
    exact hacc _ _
  simp only [createCert, hchk2]
  simp

/-- Environment of the first concrete run: nothing stored yet, the signer
answers immediately. -/
def envC1a : CreateEnv := envC7

/-- Environment of the second concrete run: its validator accepts every
present pair. -/
def cryptoAccept : CryptoEnv :=
  { pemDecode := fun b => some b, parseCert := fun b => Except.ok b,
    readCACerts := Except.ok [], verify := fun _ _ _ => Except.ok (),
    x509KeyPair := fun _ _ => Except.ok () }

def envC1b : CreateEnv := { envC7 with crypto := cryptoAccept }

/-- Witness for C1 (amended) at a concrete two-run composition with suffix
"peer". -/
theorem create_second_call_noop_witness :
    createCert envC1b "db" "pd-0" "pd-0.db.svc" [] [] "pd" "peer"
      (createCert envC1a "db" "pd-0" "pd-0.db.svc" [] [] "pd" "peer" emptyWorld).world
      = { ret := CreateRet.ok,
          world := (createCert envC1a "db" "pd-0" "pd-0.db.svc" [] [] "pd" "peer"
            emptyWorld).world,
          newCSRInvoked := false, csrCreates := 0, csrDeletes := 0 } :=
  create_second_call_noop_of_nonempty_suffix envC1a envC1b "db" "pd-0" "pd-0.db.svc"
    [] [] "pd" "peer" emptyWorld (by decide) (by decide) (fun cb kb => rfl)

/-- Counterexample to C1 as stated: with an EMPTY suffix a first Create run
succeeds, but the second call with the same descriptor does not short-circuit:
it generates fresh key material and creates a new CSR resource, because the
secret was persisted under the name with the trailing hyphen while the check
looks under the bare instance name. -/
theorem create_second_call_regenerates_empty_suffix :
    (createCert envC1a "db" "pd-0" "pd-0.db.svc" [] [] "pd" "" emptyWorld).ret
      = CreateRet.ok ∧
    (createCert envC1b "db" "pd-0" "pd-0.db.svc" [] [] "pd" ""
      (createCert envC1a "db" "pd-0" "pd-0.db.svc" [] [] "pd" "" emptyWorld).world).newCSRInvoked
      = true ∧
    (createCert envC1b "db" "pd-0" "pd-0.db.svc" [] [] "pd" ""
      (createCert envC1a "db" "pd-0" "pd-0.db.svc" [] [] "pd" "" emptyWorld).world).csrCreates
      = 1 := by
  refine ⟨?_, ?_, ?_⟩ <;> decide

end TidbCertControl
